import Mathlib

/-!
Verification of the rotating-buffer library (variant A: in-place rotating
buffer, `RotatingBuffer<T, S>` from src/src/lib.rs) against its
natural-language specification, together with a spec-modelled overflow-region
variant B.

Modelling conventions:
- the fixed array `inner: [T; S]` is a `List T` whose length is `S`
  (well-formedness is carried as an explicit hypothesis where needed);
- `usize` is `Nat`; the arithmetic in the source never relies on wrapping
  (debug builds panic on overflow, and on the one wrapping subtraction in
  release builds the subsequent in-bounds assertion fires), so a panic is
  exactly a failed bounds test on the mathematical values;
- a Rust panic is `Except.error s` where `s` is the observable state at the
  moment of the panic; every `assert!`/bounds check in the source precedes
  the mutation it guards, so the error state is the unmodified receiver.
-/

/-- The buffer state of `RotatingBuffer<T, S>`: `inner_length` is the tracked
logical length, `inner` models the fixed-size storage array `[T; S]`. -/
structure RotatingBuffer (T : Type) (S : Nat) where
  inner_length : Nat
  inner : List T
deriving Repr, DecidableEq

namespace RotatingBuffer

/-- `RotatingBuffer::new`: zeroed (default-filled) storage, zero length. -/
def new (T : Type) (S : Nat) [Inhabited T] : RotatingBuffer T S :=
  { inner_length := 0, inner := List.replicate S default }

/-- `as_slice`: the valid prefix `inner[..inner_length]`. -/
def as_slice (b : RotatingBuffer T S) : List T :=
  b.inner.take b.inner_length

/-- `get_append_only`: the writable region `inner[inner_length..]`. -/
def get_append_only (b : RotatingBuffer T S) : List T :=
  b.inner.drop b.inner_length

/-- `is_empty`. -/
def is_empty (b : RotatingBuffer T S) : Bool :=
  b.inner_length == 0

/-- `len`: the internally tracked length. -/
def len (b : RotatingBuffer T S) : Nat :=
  b.inner_length

/-- `capacity`: the const generic `S`. -/
def capacity (_b : RotatingBuffer T S) : Nat :=
  S

/-- `resize`: `assert!(new_len <= S); self.inner_length = new_len;`.
The assert precedes the mutation, so on panic the state is the receiver. -/
def resize (b : RotatingBuffer T S) (new_len : Nat) :
    Except (RotatingBuffer T S) (RotatingBuffer T S) :=
  if new_len ≤ S then .ok { b with inner_length := new_len } else .error b

/-- `add_len`: `self.resize(self.inner_length + new_len); self.inner_length`.
Returns the updated state together with the returned new length. -/
def add_len (b : RotatingBuffer T S) (new_len : Nat) :
    Except (RotatingBuffer T S) (RotatingBuffer T S × Nat) :=
  match b.resize (b.inner_length + new_len) with
  | .ok b1 => .ok (b1, b1.inner_length)
  | .error e => .error e

/-- `core::slice::rotate_right(k)` on a slice with `k ≤ len`: the last `k`
elements move to the front, the first `len - k` shift right by `k`. -/
def rotateRight (l : List T) (k : Nat) : List T :=
  l.drop (l.length - k) ++ l.take (l.length - k)

/-- `rotate_right_and_resize`:
`self.inner[..self.inner_length].rotate_right(k); self.inner_length = k;`.
Slicing panics when `inner_length` exceeds the array length, and
`rotate_right` panics when `k` exceeds the slice length; both checks precede
any mutation. Storage beyond `inner_length` is untouched by the in-place
rotation of the subslice. -/
def rotate_right_and_resize (b : RotatingBuffer T S) (k : Nat) :
    Except (RotatingBuffer T S) (RotatingBuffer T S) :=
  if b.inner_length ≤ b.inner.length then
    if k ≤ b.inner_length then
      .ok { inner_length := k,
            inner := rotateRight (b.inner.take b.inner_length) k
                       ++ b.inner.drop b.inner_length }
    else .error b
  else .error b

/-- `rotate_right_and_resize_at`:
`self.rotate_right_and_resize(self.inner_length - index)`. When
`index > inner_length` the `usize` subtraction panics in debug builds, and in
release builds it wraps to a value above `usize::MAX - index + inner_length`,
which then fails the `rotate_right` bound `k ≤ inner_length ≤ S`; either way
the call panics with the state unmodified, hence the guard here. -/
def rotate_right_and_resize_at (b : RotatingBuffer T S) (index : Nat) :
    Except (RotatingBuffer T S) (RotatingBuffer T S) :=
  if index ≤ b.inner_length then
    b.rotate_right_and_resize (b.inner_length - index)
  else .error b

/-- Caller-side write into the writable region: the stream loop copies `data`
into the first `data.length` positions of `get_append_only()` (for example
`copy_from_slice` in the crate docs, `stream.read` in the example). Panics
(slice bounds) when the data does not fit. -/
def write_append (b : RotatingBuffer T S) (data : List T) :
    Except (RotatingBuffer T S) (RotatingBuffer T S) :=
  if b.inner_length + data.length ≤ b.inner.length then
    .ok { b with
          inner := b.inner.take b.inner_length ++ data
                     ++ b.inner.drop (b.inner_length + data.length) }
  else .error b

end RotatingBuffer

/-- One call of the variant-A public interface, for reasoning about arbitrary
call sequences: the state-changing operations of the source plus the pure
views (`as_slice`, `get_append_only`; reading through them is `readOp`,
writing through `get_append_only` is `writeOp`). -/
inductive Op (T : Type) where
  | resizeOp (n : Nat)
  | addLenOp (n : Nat)
  | rotateOp (k : Nat)
  | rotateAtOp (i : Nat)
  | writeOp (data : List T)
  | readOp

/-- The state transition of one operation; `Except.error` is a panic. -/
def step (b : RotatingBuffer T S) : Op T →
    Except (RotatingBuffer T S) (RotatingBuffer T S)
  | .resizeOp n => b.resize n
  | .addLenOp n =>
      match b.add_len n with
      | .ok (b1, _) => .ok b1
      | .error e => .error e
  | .rotateOp k => b.rotate_right_and_resize k
  | .rotateAtOp i => b.rotate_right_and_resize_at i
  | .writeOp data => b.write_append data
  | .readOp => .ok b

/-- Run a sequence of operations from a given state, stopping at a panic. -/
def execFrom : List (Op T) → RotatingBuffer T S →
    Except (RotatingBuffer T S) (RotatingBuffer T S)
  | [], b => .ok b
  | op :: ops, b =>
      match step b op with
      | .ok b1 => execFrom ops b1
      | .error e => .error e

/-- Run a sequence of operations from a fresh buffer. -/
def execTrace [Inhabited T] (S : Nat) (ops : List (Op T)) :
    Except (RotatingBuffer T S) (RotatingBuffer T S) :=
  execFrom ops (RotatingBuffer.new T S)

/-- Rotation preserves the length of the slice it acts on. -/
theorem rotateRight_length (l : List T) (k : Nat) :
    (RotatingBuffer.rotateRight l k).length = l.length := by
  simp only [RotatingBuffer.rotateRight, List.length_append, List.length_drop,
    List.length_take]
  omega

/-- Well-formedness: the tracked length is within capacity and the storage
list has exactly the capacity `S` of the fixed array. -/
def Wf (b : RotatingBuffer T S) : Prop :=
  b.inner_length ≤ S ∧ b.inner.length = S

theorem rotate_right_and_resize_wf {b b' : RotatingBuffer T S} {k : Nat}
    (hb : Wf b) (h : b.rotate_right_and_resize k = .ok b') : Wf b' := by
  obtain ⟨hlen, hstore⟩ := hb
  by_cases h1 : b.inner_length ≤ b.inner.length
  · by_cases h2 : k ≤ b.inner_length
    · simp only [RotatingBuffer.rotate_right_and_resize, if_pos h1, if_pos h2] at h
      cases h
      refine ⟨le_trans h2 hlen, ?_⟩
      show (RotatingBuffer.rotateRight (b.inner.take b.inner_length) k
              ++ b.inner.drop b.inner_length).length = S
      rw [List.length_append, rotateRight_length, List.length_take,
        List.length_drop]
      omega
    · simp only [RotatingBuffer.rotate_right_and_resize, if_pos h1,
        if_neg h2] at h
      cases h
  · simp only [RotatingBuffer.rotate_right_and_resize, if_neg h1] at h
    cases h

theorem step_wf {b b' : RotatingBuffer T S} {op : Op T}
    (hb : Wf b) (h : step b op = .ok b') : Wf b' := by
  obtain ⟨hlen, hstore⟩ := hb
  cases op with
  | resizeOp n =>
      by_cases hc : n ≤ S
      · simp only [step, RotatingBuffer.resize, if_pos hc] at h
        cases h
        exact ⟨hc, hstore⟩
      · simp only [step, RotatingBuffer.resize, if_neg hc] at h
        cases h
  | addLenOp n =>
      by_cases hc : b.inner_length + n ≤ S
      · simp only [step, RotatingBuffer.add_len, RotatingBuffer.resize,
          if_pos hc] at h
        cases h
        exact ⟨hc, hstore⟩
      · simp only [step, RotatingBuffer.add_len, RotatingBuffer.resize,
          if_neg hc] at h
        cases h
  | rotateOp k => exact rotate_right_and_resize_wf ⟨hlen, hstore⟩ h
  | rotateAtOp i =>
      by_cases hc : i ≤ b.inner_length
      · simp only [step, RotatingBuffer.rotate_right_and_resize_at,
          if_pos hc] at h
        exact rotate_right_and_resize_wf ⟨hlen, hstore⟩ h
      · simp only [step, RotatingBuffer.rotate_right_and_resize_at,
          if_neg hc] at h
        cases h
  | writeOp data =>
      by_cases hc : b.inner_length + data.length ≤ b.inner.length
      · simp only [step, RotatingBuffer.write_append, if_pos hc] at h
        cases h
        refine ⟨hlen, ?_⟩
        show (b.inner.take b.inner_length ++ data
                ++ b.inner.drop (b.inner_length + data.length)).length = S
        rw [List.length_append, List.length_append, List.length_take,
          List.length_drop]
        omega
      · simp only [step, RotatingBuffer.write_append, if_neg hc] at h
        cases h
  | readOp =>
      simp only [step] at h
      cases h
      exact ⟨hlen, hstore⟩

theorem execFrom_wf {ops : List (Op T)} {b b' : RotatingBuffer T S}
    (hb : Wf b) (h : execFrom ops b = .ok b') : Wf b' := by
  induction ops generalizing b with
  | nil => simp only [execFrom] at h; cases h; exact hb
  | cons op ops ih =>
      simp only [execFrom] at h
      split at h
      next b1 heq => exact ih (step_wf hb heq) h
      next => cases h

theorem new_wf (T : Type) (S : Nat) [Inhabited T] :
    Wf (RotatingBuffer.new T S) := by
  constructor
  · exact Nat.zero_le S
  · simp [RotatingBuffer.new]

/-- Claim C1: for a buffer with `inner_length ≤ S` and `index ≤ length()`,
`rotate_right_and_resize_at index` succeeds, the new length is
`inner_length - index`, and the new `as_slice()` equals the old
`as_slice()[index..]` element for element, in order. -/
theorem claim_C1_rotate_at_preserves_tail {T : Type} {S : Nat}
    (b : RotatingBuffer T S) (index : Nat)
    (hs : b.inner.length = S) (hl : b.inner_length ≤ S)
    (hi : index ≤ b.inner_length) :
    ∃ b', b.rotate_right_and_resize_at index = .ok b' ∧
      b'.len = b.inner_length - index ∧
      b'.as_slice = b.as_slice.drop index := by
  have h1 : b.inner_length ≤ b.inner.length := by omega
  have h2 : b.inner_length - index ≤ b.inner_length := Nat.sub_le _ _
  have hllen : (b.inner.take b.inner_length).length = b.inner_length := by
    rw [List.length_take]; omega
  refine ⟨{ inner_length := b.inner_length - index,
            inner := RotatingBuffer.rotateRight (b.inner.take b.inner_length)
                       (b.inner_length - index)
                     ++ b.inner.drop b.inner_length }, ?_, rfl, ?_⟩
  · simp only [RotatingBuffer.rotate_right_and_resize_at, if_pos hi,
      RotatingBuffer.rotate_right_and_resize, if_pos h1, if_pos h2]
  · show (RotatingBuffer.rotateRight (b.inner.take b.inner_length)
            (b.inner_length - index) ++ b.inner.drop b.inner_length).take
          (b.inner_length - index)
        = (b.inner.take b.inner_length).drop index
    rw [RotatingBuffer.rotateRight, hllen,
      Nat.sub_sub_self hi, List.append_assoc]
    exact List.take_left' (by rw [List.length_drop, hllen])

/-- Witness for C1 at the buffer ⟨4, [1, 2, 3, 4]⟩ of capacity 4 with
index = 3: the tail [4] is preserved (the crate-docs example). -/
theorem claim_C1_rotate_at_preserves_tail_witness :
    ∃ b', (⟨4, [1, 2, 3, 4]⟩ : RotatingBuffer Nat 4).rotate_right_and_resize_at 3
        = .ok b' ∧
      b'.len = 4 - 3 ∧
      b'.as_slice
        = ((⟨4, [1, 2, 3, 4]⟩ : RotatingBuffer Nat 4).as_slice).drop 3 :=
  claim_C1_rotate_at_preserves_tail ⟨4, [1, 2, 3, 4]⟩ 3 (by decide) (by decide)
    (by decide)

/-- Claim C2: the length invariant `0 ≤ length() ≤ capacity()` holds for a
fresh buffer and after every successfully completed sequence of interface
calls (resize, add_len, rotate_right_and_resize, rotate_right_and_resize_at,
writes through get_append_only, reads through as_slice). -/
theorem claim_C2_length_invariant (T : Type) [Inhabited T] (S : Nat) :
    (0 ≤ (RotatingBuffer.new T S).len ∧
      (RotatingBuffer.new T S).len ≤ (RotatingBuffer.new T S).capacity) ∧
    ∀ (ops : List (Op T)) (b : RotatingBuffer T S),
      execTrace S ops = .ok b → 0 ≤ b.len ∧ b.len ≤ b.capacity := by
  refine ⟨⟨Nat.zero_le _, (new_wf T S).1⟩, ?_⟩
  intro ops b h
  exact ⟨Nat.zero_le _, (execFrom_wf (new_wf T S) h).1⟩

/-- Witness for C2 at T = Nat, S = 4, with the trace
add_len 3 then rotate_right_and_resize_at 1. -/
theorem claim_C2_length_invariant_witness :
    0 ≤ (⟨2, [0, 0, 0, 0]⟩ : RotatingBuffer Nat 4).len ∧
      (⟨2, [0, 0, 0, 0]⟩ : RotatingBuffer Nat 4).len
        ≤ (⟨2, [0, 0, 0, 0]⟩ : RotatingBuffer Nat 4).capacity :=
  (claim_C2_length_invariant Nat 4).2 [Op.addLenOp 3, Op.rotateAtOp 1]
    ⟨2, [0, 0, 0, 0]⟩ (by rfl)

/-- Claim C4: `resize` with `new_len > S` and `add_len` with
`inner_length + n > S` both panic, and the observable state at the panic is
the unmodified receiver (the assert precedes the assignment in the source). -/
theorem claim_C4_fatal_violation_no_mutation {T : Type} {S : Nat}
    (b : RotatingBuffer T S) (n m : Nat)
    (hn : S < n) (hm : S < b.inner_length + m) :
    b.resize n = .error b ∧ b.add_len m = .error b := by
  constructor
  · simp only [RotatingBuffer.resize, if_neg (by omega : ¬ n ≤ S)]
  · simp only [RotatingBuffer.add_len, RotatingBuffer.resize,
      if_neg (by omega : ¬ b.inner_length + m ≤ S)]

/-- Witness for C4 at the buffer ⟨1, [5, 6]⟩ of capacity 2, with
resize 3 and add_len 2. -/
theorem claim_C4_fatal_violation_no_mutation_witness :
    (⟨1, [5, 6]⟩ : RotatingBuffer Nat 2).resize 3
        = .error ⟨1, [5, 6]⟩ ∧
      (⟨1, [5, 6]⟩ : RotatingBuffer Nat 2).add_len 2
        = .error ⟨1, [5, 6]⟩ :=
  claim_C4_fatal_violation_no_mutation ⟨1, [5, 6]⟩ 3 2 (by decide) (by decide)

/-- Claim C5: when `inner_length + n ≤ S`, `add_len n` succeeds, increases
`inner_length` by exactly `n`, returns the new total, and leaves the storage
contents unchanged. -/
theorem claim_C5_add_len_extends {T : Type} {S : Nat}
    (b : RotatingBuffer T S) (n : Nat) (h : b.inner_length + n ≤ S) :
    ∃ b', b.add_len n = .ok (b', b.inner_length + n) ∧
      b'.inner_length = b.inner_length + n ∧ b'.inner = b.inner := by
  refine ⟨{ b with inner_length := b.inner_length + n }, ?_, rfl, rfl⟩
  simp only [RotatingBuffer.add_len, RotatingBuffer.resize, if_pos h]

/-- Witness for C5 at the buffer ⟨1, [5, 6, 7]⟩ of capacity 3 with n = 2. -/
theorem claim_C5_add_len_extends_witness :
    ∃ b', (⟨1, [5, 6, 7]⟩ : RotatingBuffer Nat 3).add_len 2
        = .ok (b', 1 + 2) ∧
      b'.inner_length = 1 + 2 ∧ b'.inner = [5, 6, 7] :=
  claim_C5_add_len_extends ⟨1, [5, 6, 7]⟩ 2 (by decide)

/-- Claim C6: `rotate_right_and_resize_at index` with `index > length()`
panics with the state unmodified (no silent truncation or wrap of the
length), and likewise `rotate_right_and_resize k` with `k > length()`. -/
theorem claim_C6_rotate_out_of_range_panics {T : Type} {S : Nat}
    (b : RotatingBuffer T S) (index k : Nat)
    (hi : b.inner_length < index) (hk : b.inner_length < k) :
    b.rotate_right_and_resize_at index = .error b ∧
      b.rotate_right_and_resize k = .error b := by
  constructor
  · simp only [RotatingBuffer.rotate_right_and_resize_at,
      if_neg (by omega : ¬ index ≤ b.inner_length)]
  · by_cases h1 : b.inner_length ≤ b.inner.length
    · simp only [RotatingBuffer.rotate_right_and_resize, if_pos h1,
        if_neg (by omega : ¬ k ≤ b.inner_length)]
    · simp only [RotatingBuffer.rotate_right_and_resize, if_neg h1]

/-- Witness for C6 at the buffer ⟨1, [5, 6]⟩ of capacity 2 with
index = 2 and k = 2. -/
theorem claim_C6_rotate_out_of_range_panics_witness :
    (⟨1, [5, 6]⟩ : RotatingBuffer Nat 2).rotate_right_and_resize_at 2
        = .error ⟨1, [5, 6]⟩ ∧
      (⟨1, [5, 6]⟩ : RotatingBuffer Nat 2).rotate_right_and_resize 2
        = .error ⟨1, [5, 6]⟩ :=
  claim_C6_rotate_out_of_range_panics ⟨1, [5, 6]⟩ 2 2 (by decide) (by decide)

/-- Claim C7: `rotate_right_and_resize_at(length())` succeeds, yields
`length() == 0`, an empty `as_slice()`, and a writable region that is the
whole storage (offset 0, full capacity S). -/
theorem claim_C7_rotate_at_len_resets {T : Type} {S : Nat}
    (b : RotatingBuffer T S) (hs : b.inner.length = S)
    (hl : b.inner_length ≤ S) :
    ∃ b', b.rotate_right_and_resize_at b.len = .ok b' ∧
      b'.len = 0 ∧ b'.as_slice = [] ∧
      b'.get_append_only = b'.inner ∧ b'.get_append_only.length = S := by
  have h1 : b.inner_length ≤ b.inner.length := by omega
  have hInner :
      RotatingBuffer.rotateRight (b.inner.take b.inner_length) 0
        ++ b.inner.drop b.inner_length = b.inner := by
    have hrot : RotatingBuffer.rotateRight (b.inner.take b.inner_length) 0
        = b.inner.take b.inner_length := by
      simp only [RotatingBuffer.rotateRight, Nat.sub_zero, List.drop_length,
        List.take_length, List.nil_append]
    rw [hrot, List.take_append_drop]
  refine ⟨{ inner_length := 0, inner := b.inner }, ?_, rfl, rfl, rfl, ?_⟩
  · simp only [RotatingBuffer.rotate_right_and_resize_at, RotatingBuffer.len,
      if_pos (le_refl b.inner_length),
      RotatingBuffer.rotate_right_and_resize, if_pos h1,
      if_pos (Nat.sub_le b.inner_length b.inner_length), Nat.sub_self,
      hInner]
    rw [if_pos (Nat.zero_le b.inner_length)]
  · show (b.inner.drop 0).length = S
    rw [List.drop_zero, hs]

/-- Witness for C7 at the buffer ⟨2, [7, 8, 9]⟩ of capacity 3. -/
theorem claim_C7_rotate_at_len_resets_witness :
    ∃ b', (⟨2, [7, 8, 9]⟩ : RotatingBuffer Nat 3).rotate_right_and_resize_at
        (⟨2, [7, 8, 9]⟩ : RotatingBuffer Nat 3).len = .ok b' ∧
      b'.len = 0 ∧ b'.as_slice = [] ∧
      b'.get_append_only = b'.inner ∧ b'.get_append_only.length = 3 :=
  claim_C7_rotate_at_len_resets ⟨2, [7, 8, 9]⟩ (by decide) (by decide)

/-- Claim C10: `rotate_right_and_resize_at index` only rearranges the old
valid region `[0, inner_length)`: every storage element at positions
`[inner_length, S)` is unchanged by the call. -/
theorem claim_C10_rotate_at_frame {T : Type} {S : Nat}
    (b : RotatingBuffer T S) (index : Nat)
    (hs : b.inner.length = S) (hl : b.inner_length ≤ S)
    (hi : index ≤ b.inner_length) :
    ∃ b', b.rotate_right_and_resize_at index = .ok b' ∧
      b'.inner.drop b.inner_length = b.inner.drop b.inner_length ∧
      ∀ i, b.inner_length ≤ i → b'.inner[i]? = b.inner[i]? := by
  have h1 : b.inner_length ≤ b.inner.length := by omega
  have h2 : b.inner_length - index ≤ b.inner_length := Nat.sub_le _ _
  have hrotlen :
      (RotatingBuffer.rotateRight (b.inner.take b.inner_length)
          (b.inner_length - index)).length = b.inner_length := by
    rw [rotateRight_length, List.length_take]; omega
  have hdrop :
      (RotatingBuffer.rotateRight (b.inner.take b.inner_length)
          (b.inner_length - index)
        ++ b.inner.drop b.inner_length).drop b.inner_length
      = b.inner.drop b.inner_length := List.drop_left' hrotlen
  refine ⟨{ inner_length := b.inner_length - index,
            inner := RotatingBuffer.rotateRight (b.inner.take b.inner_length)
                       (b.inner_length - index)
                     ++ b.inner.drop b.inner_length }, ?_, hdrop, ?_⟩
  · simp only [RotatingBuffer.rotate_right_and_resize_at, if_pos hi,
      RotatingBuffer.rotate_right_and_resize, if_pos h1, if_pos h2]
  · intro i hLi
    have hsplit : i = b.inner_length + (i - b.inner_length) := by omega
    rw [hsplit, ← List.getElem?_drop, ← List.getElem?_drop]
    rw [hdrop]

/-- Witness for C10 at the buffer ⟨2, [7, 8, 9, 10]⟩ of capacity 4 with
index = 1: positions 2 and 3 keep the values 9 and 10. -/
theorem claim_C10_rotate_at_frame_witness :
    ∃ b', (⟨2, [7, 8, 9, 10]⟩ : RotatingBuffer Nat 4).rotate_right_and_resize_at 1
        = .ok b' ∧
      b'.inner.drop 2 = ([7, 8, 9, 10] : List Nat).drop 2 ∧
      ∀ i, 2 ≤ i → b'.inner[i]? = ([7, 8, 9, 10] : List Nat)[i]? :=
  claim_C10_rotate_at_frame ⟨2, [7, 8, 9, 10]⟩ 1 (by decide) (by decide)
    (by decide)

/-- The variant-A scenario of the spec on a fresh buffer of capacity 32:
write the values 0..21, add_len 22, rotate at 17, write 24 more values into
the 27-element writable region, add_len 24, rotate at 21. Records the
returned lengths, the intermediate slice and the writable-region width. -/
def scenarioA :
    Except (RotatingBuffer Nat 32) (Nat × Nat × List Nat × Nat × Nat × Nat) := do
  let b0 := RotatingBuffer.new Nat 32
  let b1 ← b0.write_append (List.range 22)
  let (b2, len2) ← b1.add_len 22
  let b3 ← b2.rotate_right_and_resize_at 17
  let b4 ← b3.write_append (List.range' 22 24)
  let (b5, len5) ← b4.add_len 24
  let b6 ← b5.rotate_right_and_resize_at 21
  pure (len2, b3.len, b3.as_slice, b3.get_append_only.length, len5, b6.len)

/-- Claim C8: the capacity-32 scenario: length 22 after the first fill, then
length 5 with contents [17, 18, 19, 20, 21] after rotating at 17, a
27-element writable region, length 29 after adding 24, and length 8 after
rotating at 21. -/
theorem claim_C8_scenario_capacity_32 :
    scenarioA = .ok (22, 5, [17, 18, 19, 20, 21], 27, 29, 8) := by
  rfl

/-- Modelled from the spec: the repository's src/ contains no overflow-region
buffer, only variant A; this is Component B of spec section 4.2 (Overflow-
Region Buffer), constructed with primary capacity P and overflow capacity R,
total storage P + R, with a retention marker overflow_length. -/
structure OverflowBuffer (T : Type) (P R : Nat) where
  inner_length : Nat
  overflow_length : Nat
  storage : List T
deriving Repr, DecidableEq

namespace OverflowBuffer

/-- Modelled from the spec: construction with zeroed storage of P + R
elements and zero lengths. -/
def new (T : Type) (P R : Nat) [Inhabited T] : OverflowBuffer T P R :=
  { inner_length := 0, overflow_length := 0,
    storage := List.replicate (P + R) default }

/-- Modelled from the spec: a slice of exactly P elements, offset by the
current overflow_length into storage. -/
def writable_region (b : OverflowBuffer T P R) : List T :=
  (b.storage.drop b.overflow_length).take P

/-- Modelled from the spec: the valid logical content, as in variant A. -/
def as_slice (b : OverflowBuffer T P R) : List T :=
  b.storage.take b.inner_length

/-- Modelled from the spec: the tracked logical length, as in variant A. -/
def len (b : OverflowBuffer T P R) : Nat :=
  b.inner_length

/-- Modelled from the spec: with precondition n ≤ P, sets
inner_length = overflow_length + n and resets overflow_length to 0;
fatal violation otherwise. -/
def set_length (b : OverflowBuffer T P R) (n : Nat) :
    Except (OverflowBuffer T P R) (OverflowBuffer T P R) :=
  if n ≤ P then
    .ok { b with inner_length := b.overflow_length + n, overflow_length := 0 }
  else .error b

/-- Modelled from the spec: with 0 ≤ index ≤ inner_length and retained tail
k = inner_length - index fitting the overflow region (k ≤ R), copies the k
retained elements into a freshly zeroed storage block's first k positions,
sets overflow_length = k and inner_length = k; fatal violation otherwise. -/
def overflow_at [Inhabited T] (b : OverflowBuffer T P R) (index : Nat) :
    Except (OverflowBuffer T P R) (OverflowBuffer T P R) :=
  if index ≤ b.inner_length then
    if b.inner_length - index ≤ R then
      .ok { inner_length := b.inner_length - index,
            overflow_length := b.inner_length - index,
            storage := (b.storage.take b.inner_length).drop index
                         ++ List.replicate
                             (P + R - (b.inner_length - index)) default }
    else .error b
  else .error b

end OverflowBuffer

/-- Claim C9: variant B, behind the variant-A style interface, with primary
capacity P and overflow capacity R: the writable region has exactly P
elements regardless of the retained-tail size, and overflow_at index retains
the k = inner_length - index tail elements (which become the new logical
content) under the precondition k ≤ R. -/
theorem claim_C9_overflow_variant {T : Type} [Inhabited T] {P R : Nat}
    (b : OverflowBuffer T P R) (index : Nat)
    (hst : b.storage.length = P + R) (hov : b.overflow_length ≤ R)
    (hlen : b.inner_length ≤ P + R)
    (hi : index ≤ b.inner_length) (hk : b.inner_length - index ≤ R) :
    b.writable_region.length = P ∧
    ∃ b', b.overflow_at index = .ok b' ∧
      b'.len = b.inner_length - index ∧
      b'.overflow_length = b.inner_length - index ∧
      b'.as_slice = b.as_slice.drop index := by
  constructor
  · show ((b.storage.drop b.overflow_length).take P).length = P
    rw [List.length_take, List.length_drop, hst]
    omega
  refine ⟨{ inner_length := b.inner_length - index,
            overflow_length := b.inner_length - index,
            storage := (b.storage.take b.inner_length).drop index
                         ++ List.replicate
                             (P + R - (b.inner_length - index)) default },
          ?_, rfl, rfl, ?_⟩
  · simp only [OverflowBuffer.overflow_at, if_pos hi, if_pos hk]
  · show ((b.storage.take b.inner_length).drop index
            ++ List.replicate (P + R - (b.inner_length - index)) default).take
          (b.inner_length - index)
        = (b.storage.take b.inner_length).drop index
    exact List.take_left' (by rw [List.length_drop, List.length_take]; omega)

/-- Witness for C9 at P = 2, R = 2, the buffer ⟨3, 0, [1, 2, 3, 4]⟩ and
index = 2 (retained tail of one element). -/
theorem claim_C9_overflow_variant_witness :
    (⟨3, 0, [1, 2, 3, 4]⟩ : OverflowBuffer Nat 2 2).writable_region.length
        = 2 ∧
      ∃ b', (⟨3, 0, [1, 2, 3, 4]⟩ : OverflowBuffer Nat 2 2).overflow_at 2
          = .ok b' ∧
        b'.len = 3 - 2 ∧ b'.overflow_length = 3 - 2 ∧
        b'.as_slice
          = ((⟨3, 0, [1, 2, 3, 4]⟩ : OverflowBuffer Nat 2 2).as_slice).drop 2 :=
  claim_C9_overflow_variant ⟨3, 0, [1, 2, 3, 4]⟩ 2 (by decide) (by decide)
    (by decide) (by decide) (by decide)

/-- Claim C3: under the length invariant,
`get_append_only().len() + len() == capacity()`, and the writable region is
exactly the storage elements from index `inner_length` on (element `i` of
the region is storage element `inner_length + i`); `get_append_only` is a
pure view of the state. -/
theorem claim_C3_writable_region_sizing {T : Type} {S : Nat}
    (b : RotatingBuffer T S) (hs : b.inner.length = S)
    (hl : b.inner_length ≤ S) :
    b.get_append_only.length + b.len = b.capacity ∧
    ∀ i : Nat, b.get_append_only[i]? = b.inner[b.inner_length + i]? := by
  constructor
  · show (b.inner.drop b.inner_length).length + b.inner_length = S
    rw [List.length_drop]
    omega
  · intro i
    show (b.inner.drop b.inner_length)[i]? = b.inner[b.inner_length + i]?
    exact List.getElem?_drop b.inner b.inner_length i

/-- Witness for C3 at the buffer ⟨1, [5, 6, 7]⟩ of capacity 3. -/
theorem claim_C3_writable_region_sizing_witness :
    (⟨1, [5, 6, 7]⟩ : RotatingBuffer Nat 3).get_append_only.length
          + (⟨1, [5, 6, 7]⟩ : RotatingBuffer Nat 3).len
        = (⟨1, [5, 6, 7]⟩ : RotatingBuffer Nat 3).capacity ∧
      ∀ i : Nat,
        (⟨1, [5, 6, 7]⟩ : RotatingBuffer Nat 3).get_append_only[i]?
          = ([5, 6, 7] : List Nat)[1 + i]? :=
  claim_C3_writable_region_sizing ⟨1, [5, 6, 7]⟩ (by decide) (by decide)
